import Mathlib

/-!
Verification of the snapshot-listener utilities of the
`ThrottledWebChannelDeathBug325591749` repository.

The development shallowly embeds, as pure Lean functions on explicit state:

* the `Deferred` promise wrapper (`src/unnamed/part_001`), on top of
  ECMAScript promise settlement semantics (a promise settles at most once;
  later `resolve`/`reject` calls are no-ops);
* `CancellationToken` / `CancellationTokenSource`
  (`src/src/common/logging.ts`), with callback invocations made observable
  as a trace of invoked callback identities;
* `SnapshotListener` (`src/unnamed/part_001`): its buffer, terminal error
  and completion flags, the `onChange` waiter slot, the observer callbacks,
  `clear`, and `waitForSnapshot` as a fuel-indexed interpreter where the
  external pushes/cancellation arriving during a suspension are given as an
  explicit schedule of action batches (one batch per suspension, applied
  while the call is parked on `await deferred.promise`; the first action
  that settles the waiter's deferred determines the wake outcome, matching
  first-settlement-wins promise semantics).
-/

namespace SnapshotSpec

/-! ## ECMAScript promise settlement and `Deferred`

`Deferred` (src/unnamed/part_001) stores the `resolve`/`reject` executor
functions of a `new Promise` and forwards to them.  The at-most-once
settlement is the host language's promise semantics, embedded here as an
explicit settlement state. -/

/-- The settlement state of an ECMAScript promise with value type `T` and
error type `E`. -/
inductive PromiseState (T : Type) (E : Type) where
  | pending
  | resolved (v : T)
  | rejected (e : E)
deriving DecidableEq, Repr

/-- ECMAScript `resolve`: settles a pending promise, is a no-op on a
settled one. -/
def promiseResolve {T E : Type} (v : T) : PromiseState T E → PromiseState T E
  | .pending => .resolved v
  | s => s

/-- ECMAScript `reject`: settles a pending promise, is a no-op on a
settled one. -/
def promiseReject {T E : Type} (e : E) : PromiseState T E → PromiseState T E
  | .pending => .rejected e
  | s => s

/-- State of a `Deferred<T>` of src/unnamed/part_001: the state is the state of the
wrapped promise. -/
structure Deferred (T : Type) (E : Type) where
  promise : PromiseState T E
deriving DecidableEq, Repr

/-- Embeds `new Deferred()`: the wrapped promise starts out pending. -/
def Deferred.mk' (T E : Type) : Deferred T E := ⟨.pending⟩

/-- Embeds `Deferred.resolve`: forwards to the captured promise `resolve`. -/
def Deferred.resolve {T E : Type} (d : Deferred T E) (v : T) : Deferred T E :=
  ⟨promiseResolve v d.promise⟩

/-- Embeds `Deferred.reject`: forwards to the captured promise `reject`. -/
def Deferred.reject {T E : Type} (d : Deferred T E) (e : E) : Deferred T E :=
  ⟨promiseReject e d.promise⟩

/-- One settlement attempt against a deferred: an invocation of either
`resolve` or `reject`. -/
inductive SettleOp (T : Type) (E : Type) where
  | resolveOp (v : T)
  | rejectOp (e : E)
deriving DecidableEq, Repr

/-- Apply one settlement attempt. -/
def applySettle {T E : Type} (op : SettleOp T E) (d : Deferred T E) : Deferred T E :=
  match op with
  | .resolveOp v => d.resolve v
  | .rejectOp e => d.reject e

/-- Apply a sequence of settlement attempts in order. -/
def applySettles {T E : Type} (ops : List (SettleOp T E)) (d : Deferred T E) : Deferred T E :=
  ops.foldl (fun d op => applySettle op d) d

/-! ## `CancellationToken` and `CancellationTokenSource`
(src/src/common/logging.ts)

Callbacks are identified by caller-chosen natural numbers; invoking a
callback is recorded by appending its identity to a returned trace.  The
`Map<Symbol, () => void>` of `_onCancelledCallbacks` is embedded as an
association list of (fresh key, callback identity) pairs in insertion
order, which is the iteration order of an ECMAScript `Map`.  The
`_onCancelledDeferred` promise is a `Deferred Unit Unit`. -/

/-- The state of a `CancellationToken`. -/
structure CancellationToken where
  cancelled : Bool
  onCancelledCallbacks : List (Nat × Nat)
  onCancelledDeferred : Deferred Unit Unit
  nextKey : Nat
deriving DecidableEq, Repr

namespace CancellationToken

/-- Embeds `CancellationToken[CANCELLATION_TOKEN_CREATE]()`: a fresh token. -/
def create : CancellationToken :=
  { cancelled := false
    onCancelledCallbacks := []
    onCancelledDeferred := Deferred.mk' Unit Unit
    nextKey := 0 }

/-- Embeds `onCancelled(callback)`.  Returns the new token state, the trace of
callbacks invoked synchronously by the call, and the unregistration
handle: `none` stands for the literal empty arrow function returned on
the already-cancelled path, `some key` for the closure deleting `key` from the
callback map. -/
def onCancelled (t : CancellationToken) (cb : Nat) :
    CancellationToken × List Nat × Option Nat :=
  if t.cancelled then
    (t, [cb], none)
  else
    ({ t with
        onCancelledCallbacks := t.onCancelledCallbacks ++ [(t.nextKey, cb)]
        nextKey := t.nextKey + 1 },
      [], some t.nextKey)

/-- The unregistration function returned by `onCancelled`. -/
def unregister (t : CancellationToken) (h : Option Nat) : CancellationToken :=
  match h with
  | none => t
  | some key =>
      { t with
          onCancelledCallbacks :=
            t.onCancelledCallbacks.filter (fun p => p.1 ≠ key) }

/-- Embeds `CANCELLATION_TOKEN_CANCEL` (reached through
`CancellationTokenSource.cancel()`): sets `_cancelled`, resolves
`_onCancelledDeferred`, then invokes every currently registered callback.
Returns the new state and the trace of invoked callbacks, in map
iteration (insertion) order.  Note: the callback map is not cleared. -/
def cancel (t : CancellationToken) : CancellationToken × List Nat :=
  ({ t with
      cancelled := true
      onCancelledDeferred := t.onCancelledDeferred.resolve () },
    t.onCancelledCallbacks.map (fun p => p.2))

end CancellationToken

/-! ## `SnapshotListener` (src/unnamed/part_001) -/

/-- The `metadata` of a Firestore snapshot, restricted to the two fields
`waitForSnapshot` inspects. -/
structure SnapshotMetadata where
  hasPendingWrites : Bool
  fromCache : Bool
deriving DecidableEq, Repr

/-- A snapshot: an opaque payload identity plus its metadata. -/
structure Snapshot where
  id : Nat
  metadata : SnapshotMetadata
deriving DecidableEq, Repr

/-- A `FirestoreError`, identified by an opaque code. -/
structure FirestoreError where
  code : Nat
deriving DecidableEq, Repr

/-- Embeds `WaitForSnapshotOptions`: each field is `undefined` (`none`) or a
desired boolean. -/
structure WaitForSnapshotOptions where
  hasPendingWrites : Option Bool
  fromCache : Option Bool
deriving DecidableEq, Repr

/-- Whether a snapshot survives both `continue` filters of the scan loop in
`waitForSnapshot`: for each option field that is not `undefined`, the
snapshot's metadata must agree with it. -/
def snapshotMatches (options : Option WaitForSnapshotOptions) (s : Snapshot) : Bool :=
  match options with
  | none => true
  | some o =>
      (match o.hasPendingWrites with
        | none => true
        | some b => s.metadata.hasPendingWrites == b) &&
      (match o.fromCache with
        | none => true
        | some b => s.metadata.fromCache == b)

/-- The inner `while (this.snapshots.length > 0)` loop of
`waitForSnapshot`: repeatedly `shift()` the front snapshot; skip it when a
filter says `continue`; return it otherwise.  The result is the returned
snapshot (if any) paired with what is left in `this.snapshots` afterwards:
the suffix after a returned match, or `[]` when every shifted snapshot was
skipped. -/
def scanSnapshots (options : Option WaitForSnapshotOptions) :
    List Snapshot → Option Snapshot × List Snapshot
  | [] => (none, [])
  | s :: rest =>
      if snapshotMatches options s then (some s, rest)
      else scanSnapshots options rest

/-- The fields of a `SnapshotListener`.  `onChange` holds the identity of
the installed one-shot wake closure (`none` = the JS `null`). -/
structure ListenerState where
  snapshots : List Snapshot
  error : Option FirestoreError
  completed : Bool
  onChange : Option Nat
deriving DecidableEq, Repr

namespace SnapshotListener

/-- Embeds `new SnapshotListener(...)`: empty buffer, no error, not completed, no
pending waiter. -/
def init : ListenerState :=
  { snapshots := [], error := none, completed := false, onChange := none }

/-- Embeds `clear()`: `this.snapshots.splice(0)` removes every buffered
snapshot. -/
def clear (st : ListenerState) : ListenerState :=
  { st with snapshots := [] }

/-- Embeds `observer.next(snapshot)` without the `this.onChange?.()` wake (the
wake is handled by the world-level action semantics below): pushes the
snapshot onto the buffer. -/
def observerNext (st : ListenerState) (s : Snapshot) : ListenerState :=
  { st with snapshots := st.snapshots ++ [s] }

/-- Embeds `observer.error(error)` without the wake: unconditionally overwrites
`this.error`. -/
def observerError (st : ListenerState) (e : FirestoreError) : ListenerState :=
  { st with error := some e }

/-- Embeds `observer.complete()` without the wake: sets `this.completed`. -/
def observerComplete (st : ListenerState) : ListenerState :=
  { st with completed := true }

end SnapshotListener

/-! ### The world: a listener plus its cancellation token

`waitForSnapshot`'s suspension registers two things: the `onChange` wake
closure on the listener, and (via `registerDeferred`) a reject-callback on
the cancellation token.  The token side needed here is the set of
currently registered deferred-reject callbacks, kept as a list of fresh
keys. -/

/-- The cancellation-token state relevant to a suspended
`waitForSnapshot`: whether the token is cancelled and which
deferred-reject registrations are present (`registerDeferred` adds one,
its unregister function removes it). -/
structure TokenRegs where
  cancelled : Bool
  regs : List Nat
  nextReg : Nat
deriving DecidableEq, Repr

/-- A listener together with its governing token. -/
structure World where
  listener : ListenerState
  token : TokenRegs
deriving DecidableEq, Repr

/-- The external events that can occur while a `waitForSnapshot` call is
parked on `await deferred.promise`. -/
inductive Action where
  | next (s : Snapshot)
  | error (e : FirestoreError)
  | complete
  | clear
  | cancel
deriving DecidableEq, Repr

/-- How the suspended waiter's deferred gets settled by an action. -/
inductive Settle where
  | resolved
  | rejectedCancel
deriving DecidableEq, Repr

/-- Apply one external action to the world, returning the settlement it
performs on the currently suspended waiter's deferred, if any:
`observer.next/error/complete` run `this.onChange?.()` which resolves the
waiter's deferred exactly when a wake closure is installed;
`CancellationTokenSource.cancel()` invokes every registered
deferred-reject callback, rejecting the waiter's deferred with a
`CancellationTokenCancelledError` exactly when its registration is still
present. -/
def actionStep (w : World) (a : Action) : World × Option Settle :=
  match a with
  | .next s =>
      ({ w with listener := SnapshotListener.observerNext w.listener s },
        if w.listener.onChange.isSome then some .resolved else none)
  | .error e =>
      ({ w with listener := SnapshotListener.observerError w.listener e },
        if w.listener.onChange.isSome then some .resolved else none)
  | .complete =>
      ({ w with listener := SnapshotListener.observerComplete w.listener },
        if w.listener.onChange.isSome then some .resolved else none)
  | .clear =>
      ({ w with listener := SnapshotListener.clear w.listener }, none)
  | .cancel =>
      ({ w with token := { w.token with cancelled := true } },
        if w.token.regs.isEmpty then none else some .rejectedCancel)

/-- Apply a batch of external actions in order; the waiter's deferred
keeps the first settlement (ECMAScript promises settle at most once). -/
def applyActions : List Action → World → World × Option Settle
  | [], w => (w, none)
  | a :: rest, w =>
      let p := actionStep w a
      let q := applyActions rest p.1
      (q.1, p.2 <|> q.2)

/-- The ways a `waitForSnapshot` call can throw. -/
inductive WaitError where
  | usage
  | illegalStateTop
  | illegalStateResume
  | firestore (e : FirestoreError)
  | completedErr
  | cancelledErr
deriving DecidableEq, Repr

/-- The outcome of a `waitForSnapshot` call: a returned snapshot, a thrown
error, or still suspended (no settlement arrived, or the loop fuel ran
out). -/
inductive WaitResult where
  | ok (s : Snapshot)
  | err (e : WaitError)
  | suspended
deriving DecidableEq, Repr

namespace SnapshotListener

/-- The state changes performed just before parking on
`await deferred.promise`: the unsuccessfully scanned buffer is left behind
(`this.snapshots` emptied by the shifts), the fresh wake closure is stored
in `this.onChange`, and `registerDeferred` adds the deferred's
reject-callback to the token under a fresh key. -/
def installWaiter (w : World) (rest : List Snapshot) : World :=
  { listener := { w.listener with
      snapshots := rest
      onChange := some w.token.nextReg }
    token := { w.token with
      regs := w.token.regs ++ [w.token.nextReg]
      nextReg := w.token.nextReg + 1 } }

/-- The two `finally` blocks around the parked `await`: `this.onChange` is
reset to `null` and `unregisterDeferred()` removes the reject-callback
from the token. -/
def teardownWaiter (cbId : Nat) (w : World) : World :=
  { listener := { w.listener with onChange := none }
    token := { w.token with regs := w.token.regs.filter (· ≠ cbId) } }

/-- The `while (true)` loop of `waitForSnapshot`, fuel-indexed, with one
batch of external actions consumed per suspension.  Each pass, in source
order: throw `illegal state: this.onChange !== null` if a wake closure is
installed; throw `this.error` if set; throw `listener is completed` if
completed; scan the buffer (`scanSnapshots`) and return a match; otherwise
install a fresh wake closure, register the deferred's reject on the token,
park on the deferred, and on settlement run the two `finally` blocks
(check the wake closure is unchanged and clear it; unregister from the
token) before rethrowing a rejection or looping on a resolution. -/
def waitLoop (options : Option WaitForSnapshotOptions) :
    Nat → List (List Action) → World → WaitResult × World
  | 0, _, w => (.suspended, w)
  | fuel + 1, sched, w =>
      if w.listener.onChange.isSome then (.err .illegalStateTop, w)
      else
        match w.listener.error with
        | some e => (.err (.firestore e), w)
        | none =>
            if w.listener.completed then (.err .completedErr, w)
            else
              match scanSnapshots options w.listener.snapshots with
              | (some s, rest) =>
                  (.ok s, { w with listener := { w.listener with snapshots := rest } })
              | (none, rest) =>
                  let cbId := w.token.nextReg
                  let w1 := installWaiter w rest
                  match sched with
                  | [] => (.suspended, w1)
                  | batch :: schedRest =>
                      let p := applyActions batch w1
                      match p.2 with
                      | none => (.suspended, p.1)
                      | some settle =>
                          if p.1.listener.onChange ≠ some cbId then
                            (.err .illegalStateResume,
                              { p.1 with token := { p.1.token with
                                  regs := p.1.token.regs.filter (· ≠ cbId) } })
                          else
                            match settle with
                            | .rejectedCancel => (.err .cancelledErr, teardownWaiter cbId p.1)
                            | .resolved => waitLoop options fuel schedRest (teardownWaiter cbId p.1)

/-- Embeds `waitForSnapshot(options)`: the entry check (`only one call to
waitForSnapshotFromServer() at a time`) followed by the retry loop. -/
def waitForSnapshot (options : Option WaitForSnapshotOptions)
    (fuel : Nat) (sched : List (List Action)) (w : World) : WaitResult × World :=
  if w.listener.onChange.isSome then (.err .usage, w)
  else waitLoop options fuel sched w

/-- Repeated `waitForSnapshot` calls: perform `n` calls in sequence (each
with the given fuel and no external activity), collecting the results. -/
def waitCalls (options : Option WaitForSnapshotOptions) (fuel : Nat) :
    Nat → World → List WaitResult × World
  | 0, w => ([], w)
  | n + 1, w =>
      let p := waitForSnapshot options fuel [] w
      let q := waitCalls options fuel n p.2
      (p.1 :: q.1, q.2)

end SnapshotListener

/-! ### Example values used by concrete witnesses and counterexamples -/

/-- A snapshot with no pending writes, not from cache. -/
def snapA : Snapshot := ⟨0, ⟨false, false⟩⟩

/-- A snapshot with pending writes, not from cache. -/
def snapB : Snapshot := ⟨1, ⟨true, false⟩⟩

/-- A token with no cancellation and no registrations. -/
def tokenIdle : TokenRegs := ⟨false, [], 0⟩

/-! ## Helper lemmas -/

lemma resolve_resolve {T E : Type} (d : Deferred T E) (v w : T) :
    (d.resolve v).resolve w = d.resolve v := by
  cases d with
  | mk p => cases p <;> rfl

lemma resolve_reject {T E : Type} (d : Deferred T E) (v : T) (e : E) :
    (d.resolve v).reject e = d.resolve v := by
  cases d with
  | mk p => cases p <;> rfl

lemma reject_resolve {T E : Type} (d : Deferred T E) (e : E) (v : T) :
    (d.reject e).resolve v = d.reject e := by
  cases d with
  | mk p => cases p <;> rfl

lemma applySettle_settled {T E : Type} (op : SettleOp T E) (d : Deferred T E)
    (h : d.promise ≠ .pending) : applySettle op d = d := by
  cases d with
  | mk p =>
      cases p with
      | pending => exact absurd rfl h
      | resolved v => cases op <;> rfl
      | rejected e => cases op <;> rfl

lemma applySettles_settled {T E : Type} (ops : List (SettleOp T E)) :
    ∀ d : Deferred T E, d.promise ≠ .pending → applySettles ops d = d := by
  induction ops with
  | nil => intro d _; rfl
  | cons op rest ih =>
      intro d h
      show applySettles rest (applySettle op d) = d
      rw [applySettle_settled op d h]
      exact ih d h

lemma applySettle_pending_not_pending {T E : Type} (op : SettleOp T E) :
    (applySettle op (Deferred.mk' T E)).promise ≠ .pending := by
  cases op <;> simp [applySettle, Deferred.mk', Deferred.resolve, Deferred.reject,
    promiseResolve, promiseReject]

lemma scanSnapshots_none_snd (o : Option WaitForSnapshotOptions) :
    ∀ l r, scanSnapshots o l = (none, r) → r = [] := by
  intro l
  induction l with
  | nil =>
      intro r h
      simpa [scanSnapshots] using h.symm
  | cons a l ih =>
      intro r h
      by_cases hm : snapshotMatches o a = true
      · simp [scanSnapshots, hm] at h
      · simp only [scanSnapshots, hm, if_false, Bool.not_eq_true] at h ⊢
        simp [hm] at h
        exact ih r h

lemma scanSnapshots_some_matches (o : Option WaitForSnapshotOptions) :
    ∀ l s rest, scanSnapshots o l = (some s, rest) → snapshotMatches o s = true := by
  intro l
  induction l with
  | nil => intro s rest h; simp [scanSnapshots] at h
  | cons a l ih =>
      intro s rest h
      by_cases hm : snapshotMatches o a = true
      · simp [scanSnapshots, hm] at h
        rw [← h.1]
        exact hm
      · simp [scanSnapshots, hm] at h
        exact ih s rest h

lemma scanSnapshots_decomp (o : Option WaitForSnapshotOptions) :
    ∀ l s rest, scanSnapshots o l = (some s, rest) →
      ∃ pre, l = pre ++ s :: rest ∧ ∀ x ∈ pre, snapshotMatches o x = false := by
  intro l
  induction l with
  | nil => intro s rest h; simp [scanSnapshots] at h
  | cons a l ih =>
      intro s rest h
      by_cases hm : snapshotMatches o a = true
      · simp [scanSnapshots, hm] at h
        exact ⟨[], by simp [h.1, h.2], by simp⟩
      · simp [scanSnapshots, hm] at h
        obtain ⟨pre, hl, hpre⟩ := ih s rest h
        refine ⟨a :: pre, by simp [hl], ?_⟩
        intro x hx
        rcases List.mem_cons.mp hx with hx | hx
        · rw [hx]
          exact Bool.not_eq_true _ ▸ by simpa using hm
        · exact hpre x hx

lemma actionStep_onChange (w : World) (a : Action) :
    (actionStep w a).1.listener.onChange = w.listener.onChange := by
  cases a <;> rfl

lemma actionStep_regs (w : World) (a : Action) :
    (actionStep w a).1.token.regs = w.token.regs := by
  cases a <;> rfl

lemma actionStep_nextReg (w : World) (a : Action) :
    (actionStep w a).1.token.nextReg = w.token.nextReg := by
  cases a <;> rfl

lemma applyActions_onChange :
    ∀ (batch : List Action) (w : World),
      (applyActions batch w).1.listener.onChange = w.listener.onChange := by
  intro batch
  induction batch with
  | nil => intro w; rfl
  | cons a rest ih =>
      intro w
      show (applyActions rest (actionStep w a).1).1.listener.onChange = _
      rw [ih, actionStep_onChange]

lemma applyActions_regs :
    ∀ (batch : List Action) (w : World),
      (applyActions batch w).1.token.regs = w.token.regs := by
  intro batch
  induction batch with
  | nil => intro w; rfl
  | cons a rest ih =>
      intro w
      show (applyActions rest (actionStep w a).1).1.token.regs = _
      rw [ih, actionStep_regs]

lemma applyActions_nextReg :
    ∀ (batch : List Action) (w : World),
      (applyActions batch w).1.token.nextReg = w.token.nextReg := by
  intro batch
  induction batch with
  | nil => intro w; rfl
  | cons a rest ih =>
      intro w
      show (applyActions rest (actionStep w a).1).1.token.nextReg = _
      rw [ih, actionStep_nextReg]

lemma filter_append_fresh (l : List Nat) (k : Nat) (h : ∀ r ∈ l, r ≠ k) :
    (l ++ [k]).filter (fun r => r ≠ k) = l := by
  rw [List.filter_append]
  have h1 : l.filter (fun r => r ≠ k) = l :=
    List.filter_eq_self.mpr (by intro a ha; simpa using h a ha)
  have h2 : [k].filter (fun r : Nat => r ≠ k) = [] := by simp
  rw [h1, h2, List.append_nil]

lemma waitForSnapshot_eq_waitLoop (o : Option WaitForSnapshotOptions)
    (fuel : Nat) (sched : List (List Action)) (w : World)
    (h : w.listener.onChange = none) :
    SnapshotListener.waitForSnapshot o fuel sched w =
      SnapshotListener.waitLoop o fuel sched w := by
  simp [SnapshotListener.waitForSnapshot, h]

lemma waitLoop_top_error (o : Option WaitForSnapshotOptions)
    (fuel : Nat) (sched : List (List Action)) (w : World) (e : FirestoreError)
    (h1 : w.listener.onChange = none) (h2 : w.listener.error = some e) :
    SnapshotListener.waitLoop o (fuel + 1) sched w = (.err (.firestore e), w) := by
  simp [SnapshotListener.waitLoop, h1, h2]

lemma waitLoop_top_completed (o : Option WaitForSnapshotOptions)
    (fuel : Nat) (sched : List (List Action)) (w : World)
    (h1 : w.listener.onChange = none) (h2 : w.listener.error = none)
    (h3 : w.listener.completed = true) :
    SnapshotListener.waitLoop o (fuel + 1) sched w = (.err .completedErr, w) := by
  simp [SnapshotListener.waitLoop, h1, h2, h3]

lemma waitLoop_top_drain (o : Option WaitForSnapshotOptions)
    (fuel : Nat) (sched : List (List Action)) (w : World)
    (s : Snapshot) (rest : List Snapshot)
    (h1 : w.listener.onChange = none) (h2 : w.listener.error = none)
    (h3 : w.listener.completed = false)
    (h4 : scanSnapshots o w.listener.snapshots = (some s, rest)) :
    SnapshotListener.waitLoop o (fuel + 1) sched w =
      (.ok s, { w with listener := { w.listener with snapshots := rest } }) := by
  simp [SnapshotListener.waitLoop, h1, h2, h3, h4]

lemma waitLoop_suspend (o : Option WaitForSnapshotOptions)
    (fuel : Nat) (sched : List (List Action)) (w : World) (rest : List Snapshot)
    (h1 : w.listener.onChange = none) (h2 : w.listener.error = none)
    (h3 : w.listener.completed = false)
    (h4 : scanSnapshots o w.listener.snapshots = (none, rest)) :
    SnapshotListener.waitLoop o (fuel + 1) sched w =
      match sched with
      | [] => (.suspended, SnapshotListener.installWaiter w rest)
      | batch :: schedRest =>
          match (applyActions batch (SnapshotListener.installWaiter w rest)).2 with
          | none => (.suspended, (applyActions batch (SnapshotListener.installWaiter w rest)).1)
          | some .rejectedCancel =>
              (.err .cancelledErr,
                SnapshotListener.teardownWaiter w.token.nextReg
                  (applyActions batch (SnapshotListener.installWaiter w rest)).1)
          | some .resolved =>
              SnapshotListener.waitLoop o fuel schedRest
                (SnapshotListener.teardownWaiter w.token.nextReg
                  (applyActions batch (SnapshotListener.installWaiter w rest)).1) := by
  have hresume : ∀ batch : List Action,
      (applyActions batch (SnapshotListener.installWaiter w rest)).1.listener.onChange
        = some w.token.nextReg := by
    intro batch
    rw [applyActions_onChange]
    rfl
  simp only [SnapshotListener.waitLoop, h1, Option.isSome_none, Bool.false_eq_true,
    if_false, h2, h3, h4]
  cases sched with
  | nil => rfl
  | cons batch schedRest =>
      cases hp : (applyActions batch (SnapshotListener.installWaiter w rest)).2 with
      | none => simp [hp]
      | some settle =>
          have hon := hresume batch
          cases settle <;> simp [hp, hon]

lemma waitLoop_suspend_nil (o : Option WaitForSnapshotOptions)
    (fuel : Nat) (w : World) (rest : List Snapshot)
    (h1 : w.listener.onChange = none) (h2 : w.listener.error = none)
    (h3 : w.listener.completed = false)
    (h4 : scanSnapshots o w.listener.snapshots = (none, rest)) :
    SnapshotListener.waitLoop o (fuel + 1) [] w =
      (.suspended, SnapshotListener.installWaiter w rest) := by
  rw [waitLoop_suspend o fuel [] w rest h1 h2 h3 h4]

lemma waitLoop_suspend_cons (o : Option WaitForSnapshotOptions)
    (fuel : Nat) (batch : List Action) (schedRest : List (List Action))
    (w : World) (rest : List Snapshot)
    (h1 : w.listener.onChange = none) (h2 : w.listener.error = none)
    (h3 : w.listener.completed = false)
    (h4 : scanSnapshots o w.listener.snapshots = (none, rest)) :
    SnapshotListener.waitLoop o (fuel + 1) (batch :: schedRest) w =
      match (applyActions batch (SnapshotListener.installWaiter w rest)).2 with
      | none => (.suspended, (applyActions batch (SnapshotListener.installWaiter w rest)).1)
      | some .rejectedCancel =>
          (.err .cancelledErr,
            SnapshotListener.teardownWaiter w.token.nextReg
              (applyActions batch (SnapshotListener.installWaiter w rest)).1)
      | some .resolved =>
          SnapshotListener.waitLoop o fuel schedRest
            (SnapshotListener.teardownWaiter w.token.nextReg
              (applyActions batch (SnapshotListener.installWaiter w rest)).1) := by
  rw [waitLoop_suspend o fuel (batch :: schedRest) w rest h1 h2 h3 h4]

lemma teardown_after_actions_onChange (k : Nat) (w : World) :
    (SnapshotListener.teardownWaiter k w).listener.onChange = none := rfl

lemma teardown_after_actions_regs (w : World) (rest : List Snapshot)
    (batch : List Action) (hfresh : ∀ r ∈ w.token.regs, r ≠ w.token.nextReg) :
    (SnapshotListener.teardownWaiter w.token.nextReg
      (applyActions batch (SnapshotListener.installWaiter w rest)).1).token.regs
      = w.token.regs := by
  show ((applyActions batch (SnapshotListener.installWaiter w rest)).1.token.regs.filter _) = _
  rw [applyActions_regs]
  exact filter_append_fresh _ _ hfresh

lemma teardown_after_actions_nextReg (w : World) (rest : List Snapshot)
    (batch : List Action) :
    (SnapshotListener.teardownWaiter w.token.nextReg
      (applyActions batch (SnapshotListener.installWaiter w rest)).1).token.nextReg
      = w.token.nextReg + 1 := by
  show (applyActions batch (SnapshotListener.installWaiter w rest)).1.token.nextReg = _
  rw [applyActions_nextReg]
  rfl

lemma waitLoop_no_illegal (o : Option WaitForSnapshotOptions) :
    ∀ (fuel : Nat) (sched : List (List Action)) (w : World),
      w.listener.onChange = none →
      (SnapshotListener.waitLoop o fuel sched w).1 ≠ .err .illegalStateTop ∧
      (SnapshotListener.waitLoop o fuel sched w).1 ≠ .err .illegalStateResume := by
  intro fuel
  induction fuel with
  | zero =>
      intro sched w h1
      exact ⟨by simp [SnapshotListener.waitLoop], by simp [SnapshotListener.waitLoop]⟩
  | succ n ih =>
      intro sched w h1
      cases he : w.listener.error with
      | some e =>
          rw [waitLoop_top_error o n sched w e h1 he]
          exact ⟨by simp, by simp⟩
      | none =>
          cases hc : w.listener.completed with
          | true =>
              rw [waitLoop_top_completed o n sched w h1 he hc]
              exact ⟨by simp, by simp⟩
          | false =>
              cases hs : scanSnapshots o w.listener.snapshots with
              | mk first rem =>
                  cases first with
                  | some s =>
                      rw [waitLoop_top_drain o n sched w s rem h1 he hc hs]
                      exact ⟨by simp, by simp⟩
                  | none =>
                      cases sched with
                      | nil =>
                          rw [waitLoop_suspend_nil o n w rem h1 he hc hs]
                          exact ⟨by simp, by simp⟩
                      | cons batch schedRest =>
                          rw [waitLoop_suspend_cons o n batch schedRest w rem h1 he hc hs]
                          cases hp : (applyActions batch
                              (SnapshotListener.installWaiter w rem)).2 with
                          | none => exact ⟨by simp, by simp⟩
                          | some settle =>
                              cases settle with
                              | rejectedCancel => exact ⟨by simp, by simp⟩
                              | resolved => exact ih schedRest _ rfl

lemma waitLoop_never_usage (o : Option WaitForSnapshotOptions) :
    ∀ (fuel : Nat) (sched : List (List Action)) (w : World),
      (SnapshotListener.waitLoop o fuel sched w).1 ≠ .err .usage := by
  intro fuel
  induction fuel with
  | zero =>
      intro sched w
      simp [SnapshotListener.waitLoop]
  | succ n ih =>
      intro sched w
      cases ho : w.listener.onChange with
      | some k => simp [SnapshotListener.waitLoop, ho]
      | none =>
          cases he : w.listener.error with
          | some e =>
              rw [waitLoop_top_error o n sched w e ho he]
              simp
          | none =>
              cases hc : w.listener.completed with
              | true =>
                  rw [waitLoop_top_completed o n sched w ho he hc]
                  simp
              | false =>
                  cases hs : scanSnapshots o w.listener.snapshots with
                  | mk first rem =>
                      cases first with
                      | some s =>
                          rw [waitLoop_top_drain o n sched w s rem ho he hc hs]
                          simp
                      | none =>
                          cases sched with
                          | nil =>
                              rw [waitLoop_suspend_nil o n w rem ho he hc hs]
                              simp
                          | cons batch schedRest =>
                              rw [waitLoop_suspend_cons o n batch schedRest w rem ho he hc hs]
                              cases hp : (applyActions batch
                                  (SnapshotListener.installWaiter w rem)).2 with
                              | none => simp
                              | some settle =>
                                  cases settle with
                                  | rejectedCancel => simp
                                  | resolved => exact ih schedRest _

lemma waitLoop_ok_matches (o : Option WaitForSnapshotOptions) :
    ∀ (fuel : Nat) (sched : List (List Action)) (w : World) (s : Snapshot) (w' : World),
      SnapshotListener.waitLoop o fuel sched w = (.ok s, w') →
      snapshotMatches o s = true := by
  intro fuel
  induction fuel with
  | zero =>
      intro sched w s w' h
      simp [SnapshotListener.waitLoop] at h
  | succ n ih =>
      intro sched w s w' h
      cases ho : w.listener.onChange with
      | some k => simp [SnapshotListener.waitLoop, ho] at h
      | none =>
          cases he : w.listener.error with
          | some e =>
              rw [waitLoop_top_error o n sched w e ho he] at h
              simp at h
          | none =>
              cases hc : w.listener.completed with
              | true =>
                  rw [waitLoop_top_completed o n sched w ho he hc] at h
                  simp at h
              | false =>
                  cases hs : scanSnapshots o w.listener.snapshots with
                  | mk first rem =>
                      cases first with
                      | some s0 =>
                          rw [waitLoop_top_drain o n sched w s0 rem ho he hc hs] at h
                          have hss : s0 = s := by
                            have := congrArg Prod.fst h
                            simpa using this
                          rw [← hss]
                          exact scanSnapshots_some_matches o _ s0 rem hs
                      | none =>
                          cases sched with
                          | nil =>
                              rw [waitLoop_suspend_nil o n w rem ho he hc hs] at h
                              simp at h
                          | cons batch schedRest =>
                              rw [waitLoop_suspend_cons o n batch schedRest w rem ho he hc hs] at h
                              cases hp : (applyActions batch
                                  (SnapshotListener.installWaiter w rem)).2 with
                              | none => rw [hp] at h; simp at h
                              | some settle =>
                                  rw [hp] at h
                                  cases settle with
                                  | rejectedCancel => simp at h
                                  | resolved => exact ih schedRest _ s w' h

lemma waitLoop_teardown (o : Option WaitForSnapshotOptions) :
    ∀ (fuel : Nat) (sched : List (List Action)) (w : World),
      w.listener.onChange = none →
      (∀ r ∈ w.token.regs, r < w.token.nextReg) →
      (SnapshotListener.waitLoop o fuel sched w).1 ≠ .suspended →
      (SnapshotListener.waitLoop o fuel sched w).2.listener.onChange = none ∧
      (SnapshotListener.waitLoop o fuel sched w).2.token.regs = w.token.regs := by
  intro fuel
  induction fuel with
  | zero =>
      intro sched w h1 h2 h3
      exact absurd rfl h3
  | succ n ih =>
      intro sched w h1 h2 h3
      have hfresh : ∀ r ∈ w.token.regs, r ≠ w.token.nextReg := by
        intro r hr
        exact Nat.ne_of_lt (h2 r hr)
      cases he : w.listener.error with
      | some e =>
          rw [waitLoop_top_error o n sched w e h1 he]
          exact ⟨h1, rfl⟩
      | none =>
          cases hc : w.listener.completed with
          | true =>
              rw [waitLoop_top_completed o n sched w h1 he hc]
              exact ⟨h1, rfl⟩
          | false =>
              cases hs : scanSnapshots o w.listener.snapshots with
              | mk first rem =>
                  cases first with
                  | some s =>
                      rw [waitLoop_top_drain o n sched w s rem h1 he hc hs]
                      exact ⟨h1, rfl⟩
                  | none =>
                      cases sched with
                      | nil =>
                          rw [waitLoop_suspend_nil o n w rem h1 he hc hs] at h3
                          exact absurd rfl h3
                      | cons batch schedRest =>
                          rw [waitLoop_suspend_cons o n batch schedRest w rem h1 he hc hs] at h3 ⊢
                          cases hp : (applyActions batch
                              (SnapshotListener.installWaiter w rem)).2 with
                          | none =>
                              rw [hp] at h3
                              exact absurd rfl h3
                          | some settle =>
                              rw [hp] at h3
                              cases settle with
                              | rejectedCancel =>
                                  exact ⟨teardown_after_actions_onChange _ _,
                                    teardown_after_actions_regs w rem batch hfresh⟩
                              | resolved =>
                                  have hreg2 : (SnapshotListener.teardownWaiter w.token.nextReg
                                      (applyActions batch
                                        (SnapshotListener.installWaiter w rem)).1).token.regs
                                      = w.token.regs :=
                                    teardown_after_actions_regs w rem batch hfresh
                                  have hnext2 := teardown_after_actions_nextReg w rem batch
                                  have hinv2 : ∀ r ∈ (SnapshotListener.teardownWaiter w.token.nextReg
                                      (applyActions batch
                                        (SnapshotListener.installWaiter w rem)).1).token.regs,
                                      r < (SnapshotListener.teardownWaiter w.token.nextReg
                                        (applyActions batch
                                          (SnapshotListener.installWaiter w rem)).1).token.nextReg := by
                                    rw [hreg2, hnext2]
                                    intro r hr
                                    exact Nat.lt_succ_of_lt (h2 r hr)
                                  obtain ⟨ha, hb⟩ := ih schedRest _ rfl hinv2 h3
                                  exact ⟨ha, hb.trans hreg2⟩

lemma waitCalls_fifo (fuel : Nat) :
    ∀ (n : Nat) (l : List Snapshot) (tok : TokenRegs), n ≤ l.length →
      SnapshotListener.waitCalls none (fuel + 1) n ⟨⟨l, none, false, none⟩, tok⟩
        = ((l.take n).map WaitResult.ok, ⟨⟨l.drop n, none, false, none⟩, tok⟩) := by
  intro n
  induction n with
  | zero =>
      intro l tok _
      simp [SnapshotListener.waitCalls]
  | succ n ih =>
      intro l tok h
      cases l with
      | nil => simp at h
      | cons a l' =>
          have hscan : scanSnapshots none (a :: l') = (some a, l') := by
            simp [scanSnapshots, snapshotMatches]
          have hcall : SnapshotListener.waitForSnapshot none (fuel + 1) []
              ⟨⟨a :: l', none, false, none⟩, tok⟩
              = (.ok a, ⟨⟨l', none, false, none⟩, tok⟩) := by
            rw [waitForSnapshot_eq_waitLoop _ _ _ _ rfl]
            rw [waitLoop_top_drain none fuel [] _ a l' rfl rfl rfl hscan]
          show (_, _) = _
          simp only [SnapshotListener.waitCalls, hcall]
          rw [ih l' tok (Nat.le_of_succ_le_succ h)]
          simp

/-! ## Claim theorems -/

/-- C1 (counterexample): at a concrete state where a matching snapshot is
buffered and a terminal error has been recorded, `waitForSnapshot` throws
the error instead of returning the buffered matching snapshot — the error
check runs before the buffer drain, contrary to the claimed ordering. -/
theorem C1_counterexample :
    SnapshotListener.waitForSnapshot none 1 []
        ⟨⟨[snapA], some ⟨1⟩, false, none⟩, tokenIdle⟩
      = (.err (.firestore ⟨1⟩), ⟨⟨[snapA], some ⟨1⟩, false, none⟩, tokenIdle⟩) ∧
    snapshotMatches none snapA = true := by
  exact ⟨rfl, rfl⟩

/-- C1 (amended): on every pass of the retry loop the checks are ordered
error first, then completed, then buffer drain; hence with a recorded
terminal error the call fails with that error even when a matching event
is buffered, with the completed condition next, and the buffer is drained
only when neither terminal flag is set. -/
theorem C1_check_order :
    ∀ (options : Option WaitForSnapshotOptions) (fuel : Nat)
      (sched : List (List Action)) (w : World),
      w.listener.onChange = none →
      ((∀ e, w.listener.error = some e →
          SnapshotListener.waitForSnapshot options (fuel + 1) sched w
            = (.err (.firestore e), w)) ∧
        (w.listener.error = none → w.listener.completed = true →
          SnapshotListener.waitForSnapshot options (fuel + 1) sched w
            = (.err .completedErr, w)) ∧
        (∀ s rest, w.listener.error = none → w.listener.completed = false →
          scanSnapshots options w.listener.snapshots = (some s, rest) →
          SnapshotListener.waitForSnapshot options (fuel + 1) sched w
            = (.ok s, { w with listener := { w.listener with snapshots := rest } }))) := by
  intro o fuel sched w h1
  refine ⟨?_, ?_, ?_⟩
  · intro e he
    rw [waitForSnapshot_eq_waitLoop _ _ _ _ h1]
    exact waitLoop_top_error o fuel sched w e h1 he
  · intro he hc
    rw [waitForSnapshot_eq_waitLoop _ _ _ _ h1]
    exact waitLoop_top_completed o fuel sched w h1 he hc
  · intro s rest he hc hsc
    rw [waitForSnapshot_eq_waitLoop _ _ _ _ h1]
    exact waitLoop_top_drain o fuel sched w s rest h1 he hc hsc

/-- C1 (witness): the amended ordering evaluated at a concrete state with
a recorded error. -/
theorem C1_check_order_witness :
    SnapshotListener.waitForSnapshot none 1 [] ⟨⟨[], some ⟨3⟩, false, none⟩, tokenIdle⟩
      = (.err (.firestore ⟨3⟩), ⟨⟨[], some ⟨3⟩, false, none⟩, tokenIdle⟩) :=
  (C1_check_order none 0 [] ⟨⟨[], some ⟨3⟩, false, none⟩, tokenIdle⟩ rfl).1 ⟨3⟩ rfl

/-- C2 (counterexample): a callback registered before cancellation is
invoked by the first `cancel()` call and invoked again by a second
`cancel()` call — the second call is not an observable no-op. -/
theorem C2_counterexample :
    ((CancellationToken.create.onCancelled 7).1.cancel).2 = [7] ∧
    (((CancellationToken.create.onCancelled 7).1.cancel).1.cancel).2 = [7] := by
  exact ⟨rfl, rfl⟩

/-- C2 (amended): `cancel()` permanently sets `cancelled` and resolving the
internal deferred is idempotent, but it is not idempotent with respect to
callbacks: the callback map is left unchanged, so every `cancel()` call
invokes each still-registered callback once more; a callback registered
before cancellation is invoked exactly once per `cancel()` call. -/
theorem C2_cancel_effects :
    ∀ t : CancellationToken,
      t.cancel.1.cancelled = true ∧
      t.cancel.2 = t.onCancelledCallbacks.map (fun p => p.2) ∧
      t.cancel.1.onCancelledCallbacks = t.onCancelledCallbacks ∧
      t.cancel.1.cancel.2 = t.cancel.2 ∧
      t.cancel.1.cancel.1.onCancelledDeferred = t.cancel.1.onCancelledDeferred ∧
      t.cancel.1.cancel.1.cancelled = true := by
  intro t
  exact ⟨rfl, rfl, rfl, rfl, resolve_resolve t.onCancelledDeferred () (), rfl⟩

/-- C3: the buffer is consumed in FIFO order: a scan returning a match
decomposes the buffer into skipped non-matching events, the match, and the
retained suffix; at call level the match is returned and exactly the
suffix stays buffered; a returned snapshot always satisfies the filters;
and with no predicate successive calls return the events one per call in
arrival order. -/
theorem C3_fifo :
    ∀ (options : Option WaitForSnapshotOptions) (buf : List Snapshot)
      (s : Snapshot) (rest : List Snapshot),
      (scanSnapshots options buf = (some s, rest) →
        snapshotMatches options s = true ∧
        ∃ pre, buf = pre ++ s :: rest ∧ ∀ x ∈ pre, snapshotMatches options x = false) ∧
      (∀ (w : World) (fuel : Nat) (sched : List (List Action)),
        w.listener.onChange = none → w.listener.error = none →
        w.listener.completed = false →
        scanSnapshots options w.listener.snapshots = (some s, rest) →
        SnapshotListener.waitForSnapshot options (fuel + 1) sched w
          = (.ok s, { w with listener := { w.listener with snapshots := rest } })) ∧
      (∀ (fuel : Nat) (sched : List (List Action)) (w w' : World),
        SnapshotListener.waitForSnapshot options fuel sched w = (.ok s, w') →
        snapshotMatches options s = true) ∧
      (∀ (fuel n : Nat) (l : List Snapshot) (tok : TokenRegs), n ≤ l.length →
        SnapshotListener.waitCalls none (fuel + 1) n ⟨⟨l, none, false, none⟩, tok⟩
          = ((l.take n).map WaitResult.ok, ⟨⟨l.drop n, none, false, none⟩, tok⟩)) := by
  intro o buf s rest
  refine ⟨?_, ?_, ?_, ?_⟩
  · intro hscan
    exact ⟨scanSnapshots_some_matches o buf s rest hscan,
      scanSnapshots_decomp o buf s rest hscan⟩
  · intro w fuel sched h1 he hc hscan
    rw [waitForSnapshot_eq_waitLoop _ _ _ _ h1]
    exact waitLoop_top_drain o fuel sched w s rest h1 he hc hscan
  · intro fuel sched w w' h
    cases ho : w.listener.onChange with
    | some k => simp [SnapshotListener.waitForSnapshot, ho] at h
    | none =>
        rw [waitForSnapshot_eq_waitLoop _ _ _ _ ho] at h
        exact waitLoop_ok_matches o fuel sched w s w' h
  · intro fuel n l tok h
    exact waitCalls_fifo fuel n l tok h

/-- C3 (witness): two pushed snapshots are returned by two successive
no-predicate calls in arrival order. -/
theorem C3_fifo_witness :
    SnapshotListener.waitCalls none 1 2 ⟨⟨[snapA, snapB], none, false, none⟩, tokenIdle⟩
      = ([.ok snapA, .ok snapB], ⟨⟨[], none, false, none⟩, tokenIdle⟩) := by
  have h := (C3_fifo none [snapA, snapB] snapA []).2.2.2 0 2 [snapA, snapB]
    tokenIdle (by decide)
  simpa using h

/-- C4 (counterexample): a second `observer.error` call overwrites the
first recorded error, and with a matching snapshot buffered the call still
fails (with the most recent error) instead of scanning the buffer. -/
theorem C4_counterexample :
    (SnapshotListener.observerError
        (SnapshotListener.observerError ⟨[snapA], none, false, none⟩ ⟨1⟩) ⟨2⟩).error
      ≠ some ⟨1⟩ ∧
    SnapshotListener.waitForSnapshot none 1 []
        ⟨SnapshotListener.observerError
          (SnapshotListener.observerError ⟨[snapA], none, false, none⟩ ⟨1⟩) ⟨2⟩, tokenIdle⟩
      = (.err (.firestore ⟨2⟩), ⟨⟨[snapA], some ⟨2⟩, false, none⟩, tokenIdle⟩) ∧
    snapshotMatches none snapA = true := by
  decide

/-- C4 (amended): once an error is recorded, every subsequent
`waitForSnapshot` call fails immediately with the currently recorded
error, before any buffer scan; the error slot is never reset by the other
observer operations or by `clear`, but a second `observer.error` call
overwrites it, so later failures carry the most recently delivered
error. -/
theorem C4_error_latest_wins :
    ∀ (w : World) (options : Option WaitForSnapshotOptions) (fuel : Nat)
      (sched : List (List Action)) (e : FirestoreError),
      (w.listener.onChange = none → w.listener.error = some e →
        SnapshotListener.waitForSnapshot options (fuel + 1) sched w
          = (.err (.firestore e), w)) ∧
      (∀ st : ListenerState, (SnapshotListener.observerError st e).error = some e) ∧
      (∀ (st : ListenerState) (e2 : FirestoreError),
        (SnapshotListener.observerError (SnapshotListener.observerError st e) e2).error
          = some e2) ∧
      (∀ (st : ListenerState) (s : Snapshot),
        (SnapshotListener.observerNext st s).error = st.error) ∧
      (∀ st : ListenerState, (SnapshotListener.observerComplete st).error = st.error) ∧
      (∀ st : ListenerState, (SnapshotListener.clear st).error = st.error) := by
  intro w o fuel sched e
  refine ⟨?_, fun st => rfl, fun st e2 => rfl, fun st s => rfl, fun st => rfl, fun st => rfl⟩
  intro h1 he
  rw [waitForSnapshot_eq_waitLoop _ _ _ _ h1]
  exact waitLoop_top_error o fuel sched w e h1 he

/-- C4 (witness): the amended statement evaluated at a concrete errored
listener. -/
theorem C4_error_latest_wins_witness :
    SnapshotListener.waitForSnapshot none 1 [] ⟨⟨[], some ⟨5⟩, false, none⟩, tokenIdle⟩
      = (.err (.firestore ⟨5⟩), ⟨⟨[], some ⟨5⟩, false, none⟩, tokenIdle⟩) :=
  (C4_error_latest_wins ⟨⟨[], some ⟨5⟩, false, none⟩, tokenIdle⟩ none 0 [] ⟨5⟩).1 rfl rfl

/-- C5: a call suspended awaiting events rejects with the cancellation
error when the governing token is cancelled, leaving the wake slot
cleared, the deferred registration removed and the token cancelled; and
on every non-suspended exit the wake slot is `none`, the token's
registrations are restored, so a subsequent call never fails with the
usage error. -/
theorem C5_cancel_teardown :
    ∀ (options : Option WaitForSnapshotOptions) (fuel : Nat)
      (sched : List (List Action)) (w : World),
      w.listener.onChange = none →
      (∀ r ∈ w.token.regs, r < w.token.nextReg) →
      ((w.listener.error = none → w.listener.completed = false →
        (scanSnapshots options w.listener.snapshots).1 = none →
        (SnapshotListener.waitForSnapshot options (fuel + 1)
            ([Action.cancel] :: sched) w).1 = .err .cancelledErr ∧
        (SnapshotListener.waitForSnapshot options (fuel + 1)
            ([Action.cancel] :: sched) w).2.listener.onChange = none ∧
        (SnapshotListener.waitForSnapshot options (fuel + 1)
            ([Action.cancel] :: sched) w).2.token.regs = w.token.regs ∧
        (SnapshotListener.waitForSnapshot options (fuel + 1)
            ([Action.cancel] :: sched) w).2.token.cancelled = true) ∧
      ((SnapshotListener.waitForSnapshot options fuel sched w).1 ≠ .suspended →
        (SnapshotListener.waitForSnapshot options fuel sched w).2.listener.onChange
          = none ∧
        (SnapshotListener.waitForSnapshot options fuel sched w).2.token.regs
          = w.token.regs ∧
        ∀ (o2 : Option WaitForSnapshotOptions) (f2 : Nat) (s2 : List (List Action)),
          (SnapshotListener.waitForSnapshot o2 f2 s2
            (SnapshotListener.waitForSnapshot options fuel sched w).2).1
            ≠ .err .usage)) := by
  intro o fuel sched w h1 hinv
  have hfresh : ∀ r ∈ w.token.regs, r ≠ w.token.nextReg := fun r hr =>
    Nat.ne_of_lt (hinv r hr)
  constructor
  · intro he hc hs1
    cases hscan : scanSnapshots o w.listener.snapshots with
    | mk first rem =>
        have hfst : first = none := by rw [hscan] at hs1; exact hs1
        subst hfst
        have hrem : rem = [] := scanSnapshots_none_snd o _ rem hscan
        subst hrem
        rw [waitForSnapshot_eq_waitLoop _ _ _ _ h1]
        rw [waitLoop_suspend_cons o fuel [Action.cancel] sched w [] h1 he hc hscan]
        have hne : ((SnapshotListener.installWaiter w []).token.regs).isEmpty = false := by
          show ((w.token.regs ++ [w.token.nextReg]).isEmpty) = false
          simp
        have hstep : applyActions [Action.cancel] (SnapshotListener.installWaiter w [])
            = ({ SnapshotListener.installWaiter w [] with
                  token := { (SnapshotListener.installWaiter w []).token with
                    cancelled := true } },
                some .rejectedCancel) := by
          simp [applyActions, actionStep, hne]
        rw [hstep]
        refine ⟨rfl, rfl, ?_, rfl⟩
        show (((SnapshotListener.installWaiter w []).token.regs).filter _) = _
        exact filter_append_fresh _ _ hfresh
  · intro hns
    rw [waitForSnapshot_eq_waitLoop _ _ _ _ h1] at hns ⊢
    obtain ⟨ha, hb⟩ := waitLoop_teardown o fuel sched w h1 hinv hns
    refine ⟨ha, hb, ?_⟩
    intro o2 f2 s2
    rw [waitForSnapshot_eq_waitLoop _ _ _ _ ha]
    exact waitLoop_never_usage o2 f2 s2 _

/-- C5 (witness): cancelling during the first suspension at a concrete
empty listener. -/
theorem C5_cancel_teardown_witness :
    (SnapshotListener.waitForSnapshot none 1 [[Action.cancel]]
        ⟨SnapshotListener.init, tokenIdle⟩).1 = .err .cancelledErr ∧
    (SnapshotListener.waitForSnapshot none 1 [[Action.cancel]]
        ⟨SnapshotListener.init, tokenIdle⟩).2.listener.onChange = none ∧
    (SnapshotListener.waitForSnapshot none 1 [[Action.cancel]]
        ⟨SnapshotListener.init, tokenIdle⟩).2.token.regs = [] := by
  have h := ((C5_cancel_teardown none 0 [] ⟨SnapshotListener.init, tokenIdle⟩ rfl
    (by intro r hr; simp [tokenIdle] at hr)).1) rfl rfl rfl
  exact ⟨h.1, h.2.1, h.2.2.1⟩

/-- C6: a `waitForSnapshot` call issued while another call on the same
instance is outstanding (its wake closure is installed) fails immediately
with the usage error and changes nothing. -/
theorem C6_concurrent_call_usage_error :
    ∀ (options : Option WaitForSnapshotOptions) (fuel : Nat)
      (sched : List (List Action)) (w : World) (k : Nat),
      w.listener.onChange = some k →
      SnapshotListener.waitForSnapshot options fuel sched w = (.err .usage, w) := by
  intro o fuel sched w k h
  simp [SnapshotListener.waitForSnapshot, h]

/-- C6 (witness): the usage error at a concrete listener with a pending
waiter. -/
theorem C6_concurrent_call_usage_error_witness :
    SnapshotListener.waitForSnapshot none 1 [] ⟨⟨[], none, false, some 0⟩, tokenIdle⟩
      = (.err .usage, ⟨⟨[], none, false, some 0⟩, tokenIdle⟩) :=
  C6_concurrent_call_usage_error none 1 [] ⟨⟨[], none, false, some 0⟩, tokenIdle⟩ 0 rfl

/-- C7: `onCancelled` on an already-cancelled token invokes the callback
synchronously, leaves the token unchanged and returns the no-op
unregistration handle; on a live token it registers the callback without
invoking it, and cancellation then invokes it after the earlier
registrations; the unregistration function never invokes a callback and
never alters the cancellation state, and the no-op handle leaves the
token exactly unchanged. -/
theorem C7_onCancelled_contract :
    ∀ (t : CancellationToken) (cb : Nat),
      (t.cancelled = true → t.onCancelled cb = (t, [cb], none)) ∧
      (t.cancelled = false →
        (t.onCancelled cb).2.1 = [] ∧
        (t.onCancelled cb).1.onCancelledCallbacks
          = t.onCancelledCallbacks ++ [(t.nextKey, cb)] ∧
        ((t.onCancelled cb).1.cancel).2
          = t.onCancelledCallbacks.map (fun p => p.2) ++ [cb]) ∧
      (∀ t' : CancellationToken, t'.unregister none = t') ∧
      (∀ (t' : CancellationToken) (h : Option Nat),
        (t'.unregister h).cancelled = t'.cancelled ∧
        (t'.unregister h).onCancelledDeferred = t'.onCancelledDeferred) := by
  intro t cb
  refine ⟨?_, ?_, fun t' => rfl, ?_⟩
  · intro h
    simp [CancellationToken.onCancelled, h]
  · intro h
    refine ⟨?_, ?_, ?_⟩
    · simp [CancellationToken.onCancelled, h]
    · simp [CancellationToken.onCancelled, h]
    · simp [CancellationToken.onCancelled, CancellationToken.cancel, h]
  · intro t' h
    cases h <;> exact ⟨rfl, rfl⟩

/-- C7 (witness): the contract evaluated on a concrete cancelled token and
a concrete live token. -/
theorem C7_onCancelled_contract_witness :
    (CancellationToken.create.cancel.1.onCancelled 9)
      = (CancellationToken.create.cancel.1, [9], none) ∧
    (CancellationToken.create.onCancelled 9).2.1 = [] := by
  refine ⟨(C7_onCancelled_contract CancellationToken.create.cancel.1 9).1 rfl, ?_⟩
  exact ((C7_onCancelled_contract CancellationToken.create 9).2.1 rfl).1

/-- C8: a deferred settles at most once: resolving twice keeps the first
resolution, rejecting after resolving (and resolving after rejecting) has
no effect, and for a fresh deferred the first settlement attempt of any
sequence determines the final state. -/
theorem C8_deferred_first_settlement_wins :
    ∀ {T E : Type} (d : Deferred T E) (v w : T) (e : E)
      (op : SettleOp T E) (ops : List (SettleOp T E)),
      (d.resolve v).resolve w = d.resolve v ∧
      (d.resolve v).reject e = d.resolve v ∧
      (d.reject e).resolve v = d.reject e ∧
      applySettles (op :: ops) (Deferred.mk' T E) = applySettle op (Deferred.mk' T E) := by
  intro T E d v w e op ops
  refine ⟨resolve_resolve d v w, resolve_reject d v e, reject_resolve d e v, ?_⟩
  show applySettles ops (applySettle op (Deferred.mk' T E)) = _
  exact applySettles_settled ops _ (applySettle_pending_not_pending op)

/-- C9: `clear()` empties the buffer and changes nothing else: the error,
completed flag and wake slot are untouched. -/
theorem C9_clear_frame :
    ∀ st : ListenerState,
      (SnapshotListener.clear st).snapshots = [] ∧
      (SnapshotListener.clear st).error = st.error ∧
      (SnapshotListener.clear st).completed = st.completed ∧
      (SnapshotListener.clear st).onChange = st.onChange :=
  fun _ => ⟨rfl, rfl, rfl, rfl⟩

/-- C10: under the precondition that no other call is outstanding (the
wake slot is `none` at entry), neither internal illegal-state assertion
of `waitForSnapshot` can fire, for any options, fuel and schedule of
external actions. -/
theorem C10_assertions_unreachable :
    ∀ (options : Option WaitForSnapshotOptions) (fuel : Nat)
      (sched : List (List Action)) (w : World),
      w.listener.onChange = none →
      (SnapshotListener.waitForSnapshot options fuel sched w).1
        ≠ .err .illegalStateTop ∧
      (SnapshotListener.waitForSnapshot options fuel sched w).1
        ≠ .err .illegalStateResume := by
  intro o fuel sched w h1
  rw [waitForSnapshot_eq_waitLoop o fuel sched w h1]
  exact waitLoop_no_illegal o fuel sched w h1

/-- C10 (witness): the assertion freedom evaluated at a concrete fresh
listener. -/
theorem C10_assertions_unreachable_witness :
    (SnapshotListener.waitForSnapshot none 2 [[Action.next snapA]]
        ⟨SnapshotListener.init, tokenIdle⟩).1 ≠ .err .illegalStateTop ∧
    (SnapshotListener.waitForSnapshot none 2 [[Action.next snapA]]
        ⟨SnapshotListener.init, tokenIdle⟩).1 ≠ .err .illegalStateResume :=
  C10_assertions_unreachable none 2 [[Action.next snapA]]
    ⟨SnapshotListener.init, tokenIdle⟩ rfl

end SnapshotSpec
